import Mathlib

/-!
Verification of the NYC subway tracker server and client.

The server (server.js) is an Express application over a SQLite store with
three tables (users, sessions, visited_stations); lib/auth.js provides the
session service and lib/db.js the schema. The client (app.js) keeps a local
mirror of the visited-station ids. We embed the store as explicit lists of
rows, each handler as a function from store state and request data to a
response and a new store state, and the client toggle loop as a recursion
over the complex members with an explicit per-call outcome function.

Timestamps are modelled as natural numbers; SQL CURRENT_TIMESTAMP becomes a
`now` parameter passed to each operation.
-/

namespace SubwayTracker

/-- Row of the users table: id INTEGER PRIMARY KEY AUTOINCREMENT,
username TEXT UNIQUE, pin TEXT. -/
structure UserRow where
  id : Nat
  username : String
  pin : String
deriving DecidableEq

/-- Row of the sessions table: id TEXT PRIMARY KEY, user_id INTEGER,
expires_at DATETIME. -/
structure SessionRow where
  id : String
  user_id : Nat
  expires_at : Nat
deriving DecidableEq

/-- Row of the visited_stations table: user_id INTEGER, station_id TEXT,
visited_at DATETIME, UNIQUE(user_id, station_id). -/
structure VisitRow where
  user_id : Nat
  station_id : String
  visited_at : Nat
deriving DecidableEq

/-- The SQLite store: the three tables plus the AUTOINCREMENT counter for
users.id. -/
structure DB where
  users : List UserRow
  sessions : List SessionRow
  visited : List VisitRow
  nextUserId : Nat
deriving DecidableEq

/-- username.toLowerCase() as used by lib/auth.js for handle normalization. -/
def lowerHandle (s : String) : String :=
  ⟨s.data.map Char.toLower⟩

/-- The WHERE user_id = ? AND station_id = ? predicate. -/
def isPair (u : Nat) (s : String) (r : VisitRow) : Bool :=
  decide (r.user_id = u ∧ r.station_id = s)

/-- The WHERE user_id = ? predicate. -/
def isUser (u : Nat) (r : VisitRow) : Bool :=
  decide (r.user_id = u)

/-- INSERT OR REPLACE INTO visited_stations (user_id, station_id): every row
conflicting on UNIQUE(user_id, station_id) is deleted and the fresh row is
appended with visited_at = CURRENT_TIMESTAMP. -/
def markVisited (db : DB) (u : Nat) (s : String) (now : Nat) : DB :=
  { db with visited :=
      db.visited.filter (fun r => !isPair u s r) ++ [⟨u, s, now⟩] }

/-- DELETE FROM visited_stations WHERE user_id = ? AND station_id = ?;
returns the new store and result.changes (rows removed). -/
def deleteVisited (db : DB) (u : Nat) (s : String) : DB × Nat :=
  ({ db with visited := db.visited.filter (fun r => !isPair u s r) },
   (db.visited.filter (isPair u s)).length)

/-- DELETE FROM visited_stations WHERE user_id = ?; returns the new store
and result.changes. -/
def clearVisited (db : DB) (u : Nat) : DB × Nat :=
  ({ db with visited := db.visited.filter (fun r => !isUser u r) },
   (db.visited.filter (isUser u)).length)

/-- Insertion step of ORDER BY visited_at: place a row before the first row
with a strictly later timestamp (stable for equal timestamps). -/
def insertByTime (a : VisitRow) : List VisitRow → List VisitRow
  | [] => [a]
  | b :: l => if a.visited_at ≤ b.visited_at then a :: b :: l
              else b :: insertByTime a l

/-- ORDER BY visited_at as a stable insertion sort. -/
def sortByTime : List VisitRow → List VisitRow
  | [] => []
  | a :: l => insertByTime a (sortByTime l)

/-- SELECT station_id FROM visited_stations WHERE user_id = ? ORDER BY
visited_at: the rows before projecting out station_id. -/
def getVisitedRows (db : DB) (u : Nat) : List VisitRow :=
  sortByTime (db.visited.filter (isUser u))

/-- The array of station ids the GET /api/visited handler responds with. -/
def getVisited (db : DB) (u : Nat) : List String :=
  (getVisitedRows db u).map (fun r => r.station_id)

/-- Hex digit character for a value below 16, lowercase as produced by
Number.prototype.toString(16). -/
def hexDigit (n : Nat) : Char :=
  if n < 10 then Char.ofNat (48 + n) else Char.ofNat (87 + n)

/-- One byte rendered as b.toString(16).padStart(2, the zero digit): exactly
two lowercase hex characters for b below 256. -/
def byteToHexChars (b : Nat) : List Char :=
  [hexDigit (b / 16 % 16), hexDigit (b % 16)]

/-- generateSessionId from lib/auth.js: 24 bytes, each drawn as
Math.floor(Math.random() times 256), hex-encoded and joined. The random
source is modelled as an explicit function from byte index to a natural
number; the code takes it from Math.random, which is not a CSPRNG. -/
def generateSessionId (rand : Nat → Nat) : String :=
  ⟨(((List.range 24).map (fun i => rand i % 256)).map byteToHexChars).flatten⟩

/-- SESSION_MAX_AGE from lib/auth.js: 30 days in milliseconds. -/
def SESSION_MAX_AGE : Nat := 30 * 24 * 60 * 60 * 1000

/-- createSession(userId): generate a token, INSERT INTO sessions with
expires_at = now + SESSION_MAX_AGE, return the token. -/
def createSession (db : DB) (userId : Nat) (now : Nat) (rand : Nat → Nat) :
    String × DB :=
  let sid := generateSessionId rand
  (sid, { db with sessions := db.sessions ++ [⟨sid, userId, now + SESSION_MAX_AGE⟩] })

/-- deleteSession: DELETE FROM sessions WHERE id = ?. -/
def deleteSession (db : DB) (sid : String) : DB :=
  { db with sessions := db.sessions.filter (fun srow => !(srow.id == sid)) }

/-- Milliseconds per UTC day. -/
def msPerDay : Nat := 24 * 60 * 60 * 1000

/-- The WHERE clause s.expires_at > datetime('now') of getUserFromSession.
expires_at was stored by createSession as new Date(...).toISOString(), a
fixed-width UTC string of shape YYYY-MM-DDTHH:MM:SS.sssZ, while
datetime('now') yields the fixed-width UTC shape YYYY-MM-DD HH:MM:SS. The
DATETIME column's NUMERIC affinity converts neither string, so SQLite
compares the raw TEXT. The ten-byte date prefixes order lexicographically
exactly as chronologically, and on an equal date the eleventh byte decides:
T (0x54) beats the space (0x20), so the stored string wins for every time
of that day. Net effect on the underlying millisecond timestamps: the
clause is true exactly when the expiry's UTC day is not before the current
UTC day - a session stays resolvable until the end of its expiry's UTC
day, not until its expiry instant. -/
def expiresAtTextGtNow (expiresAt now : Nat) : Bool :=
  decide (now / msPerDay ≤ expiresAt / msPerDay)

/-- getUserFromSession from lib/auth.js: null for a falsy session id,
otherwise the SELECT joining sessions with users on user_id; the expiry
condition is the TEXT comparison modelled by expiresAtTextGtNow. -/
def getUserFromSession (db : DB) (sessionId : Option String) (now : Nat) :
    Option UserRow :=
  match sessionId with
  | none => none
  | some sid =>
    if sid = "" then none
    else
      match db.sessions.find? (fun srow =>
          srow.id == sid && expiresAtTextGtNow srow.expires_at now) with
      | none => none
      | some srow => db.users.find? (fun urow => urow.id == srow.user_id)

/-- createUser from lib/auth.js: INSERT INTO users with the lowercased
username; a UNIQUE violation on username is caught and surfaced as null. -/
def createUser (db : DB) (username pin : String) : Option UserRow × DB :=
  let norm := lowerHandle username
  if db.users.any (fun urow => urow.username == norm) then (none, db)
  else
    let urow : UserRow := ⟨db.nextUserId, norm, pin⟩
    (some urow, { db with users := db.users ++ [urow],
                          nextUserId := db.nextUserId + 1 })

/-- verifyUser from lib/auth.js: SELECT * FROM users WHERE username = ? AND
pin = ?, with the username lowercased first. -/
def verifyUser (db : DB) (username pin : String) : Option UserRow :=
  db.users.find? (fun urow => urow.username == lowerHandle username
    && urow.pin == pin)

/-- A JSON response body, one constructor per shape the server emits. -/
inductive RespBody where
  | errMsg (msg : String)
  | stationList (ids : List String)
  | markOk (stationId : String)
  | unmarkOk (stationId : String) (deleted : Bool)
  | clearOk (deletedCount : Nat)
  | userOk (id : Nat) (username : String)
deriving DecidableEq

/-- An HTTP response: status code and JSON body. -/
structure Resp where
  status : Nat
  body : RespBody
deriving DecidableEq

/-- The response requireAuth sends when req.user is null. -/
def authRequired : Resp :=
  ⟨401, RespBody.errMsg "Authentication required"⟩

/-- The regex check ^\d{4,6}$ applied to the PIN at registration. -/
def validPin (pin : String) : Bool :=
  decide (4 ≤ pin.length) && decide (pin.length ≤ 6)
    && pin.data.all (fun c => c.isDigit)

/-- POST /auth/register: field presence, username length 3-20, PIN shape,
then createUser (null means the handle is taken), then a session. -/
def registerEndpoint (db : DB) (username pin : String) (now : Nat)
    (rand : Nat → Nat) : Resp × DB :=
  if username = "" ∨ pin = "" then
    (⟨400, RespBody.errMsg "Username and PIN required"⟩, db)
  else if username.length < 3 ∨ 20 < username.length then
    (⟨400, RespBody.errMsg "Username must be 3-20 characters"⟩, db)
  else if !validPin pin then
    (⟨400, RespBody.errMsg "PIN must be 4-6 digits"⟩, db)
  else
    match createUser db username pin with
    | (none, _) => (⟨400, RespBody.errMsg "Username already taken"⟩, db)
    | (some urow, db1) =>
      let (_, db2) := createSession db1 urow.id now rand
      (⟨200, RespBody.userOk urow.id urow.username⟩, db2)

/-- POST /auth/login: field presence, verifyUser, then a session; a failed
verification is answered with one fixed 401 body. -/
def loginEndpoint (db : DB) (username pin : String) (now : Nat)
    (rand : Nat → Nat) : Resp × DB :=
  if username = "" ∨ pin = "" then
    (⟨400, RespBody.errMsg "Username and PIN required"⟩, db)
  else
    match verifyUser db username pin with
    | none => (⟨401, RespBody.errMsg "Invalid username or PIN"⟩, db)
    | some urow =>
      let (_, db1) := createSession db urow.id now rand
      (⟨200, RespBody.userOk urow.id urow.username⟩, db1)

/-- GET /api/visited behind requireAuth. -/
def getVisitedEndpoint (db : DB) (cookie : Option String) (now : Nat) :
    Resp × DB :=
  match getUserFromSession db cookie now with
  | none => (authRequired, db)
  | some urow => (⟨200, RespBody.stationList (getVisited db urow.id)⟩, db)

/-- POST /api/visited/:stationId behind requireAuth. -/
def markEndpoint (db : DB) (cookie : Option String) (now : Nat)
    (stationId : String) : Resp × DB :=
  match getUserFromSession db cookie now with
  | none => (authRequired, db)
  | some urow =>
    (⟨200, RespBody.markOk stationId⟩, markVisited db urow.id stationId now)

/-- DELETE /api/visited/:stationId behind requireAuth; deleted is
result.changes strictly positive. -/
def unmarkEndpoint (db : DB) (cookie : Option String) (now : Nat)
    (stationId : String) : Resp × DB :=
  match getUserFromSession db cookie now with
  | none => (authRequired, db)
  | some urow =>
    let r := deleteVisited db urow.id stationId
    (⟨200, RespBody.unmarkOk stationId (decide (0 < r.2))⟩, r.1)

/-- DELETE /api/visited behind requireAuth. -/
def clearEndpoint (db : DB) (cookie : Option String) (now : Nat) :
    Resp × DB :=
  match getUserFromSession db cookie now with
  | none => (authRequired, db)
  | some urow =>
    let r := clearVisited db urow.id
    (⟨200, RespBody.clearOk r.2⟩, r.1)

/-- One visited-marks store operation issued on behalf of a session-resolved
user: the three mutating /api/visited handlers. -/
inductive VOp where
  | mark (s : String) (t : Nat)
  | unmark (s : String)
  | clear

/-- Apply one visited-marks operation for user u. -/
def applyVOp (u : Nat) (db : DB) : VOp → DB
  | VOp.mark s t => markVisited db u s t
  | VOp.unmark s => (deleteVisited db u s).1
  | VOp.clear => (clearVisited db u).1

/-- Apply a sequence of visited-marks operations for user u. -/
def applyVOps (u : Nat) (db : DB) : List VOp → DB
  | [] => db
  | op :: ops => applyVOps u (applyVOp u db op) ops

/-- Outcome of one client fetch: none models a thrown network error (which
aborts the surrounding try block), some b models a response with ok = b. -/
def CallOutcome := String → Option Bool

/-- The unmark loop of SubwayTracker.toggleStation in app.js: for each
complex member currently in the local mirror, issue DELETE and splice the id
out only when the response is ok; a thrown fetch aborts the loop. Returns
the final mirror and the ids whose calls succeeded. -/
def runUnmark (oc : CallOutcome) :
    List String → List String → List String × List String
  | vis, [] => (vis, [])
  | vis, id :: rest =>
    if id ∈ vis then
      match oc id with
      | none => (vis, [])
      | some true =>
        ((runUnmark oc (vis.erase id) rest).1,
         id :: (runUnmark oc (vis.erase id) rest).2)
      | some false => runUnmark oc vis rest
    else runUnmark oc vis rest

/-- The mark loop of SubwayTracker.toggleStation in app.js: for each complex
member not yet in the local mirror, issue POST and push the id only when the
response is ok; a thrown fetch aborts the loop. -/
def runMark (oc : CallOutcome) :
    List String → List String → List String × List String
  | vis, [] => (vis, [])
  | vis, id :: rest =>
    if id ∈ vis then runMark oc vis rest
    else
      match oc id with
      | none => (vis, [])
      | some true =>
        ((runMark oc (vis ++ [id]) rest).1,
         id :: (runMark oc (vis ++ [id]) rest).2)
      | some false => runMark oc vis rest

/-- SubwayTracker.toggleStation: the target state is the opposite of the
primary id's membership in the mirror; then one loop over the complex
members. -/
def toggleStation (vis : List String) (primary : String)
    (complex : List String) (oc : CallOutcome) :
    List String × List String :=
  if primary ∈ vis then runUnmark oc vis complex
  else runMark oc vis complex

theorem insertByTime_perm (a : VisitRow) (l : List VisitRow) :
    List.Perm (insertByTime a l) (a :: l) := by
  induction l with
  | nil => simp [insertByTime]
  | cons b l ih =>
    simp only [insertByTime]
    split
    · exact List.Perm.refl _
    · exact (List.Perm.cons b ih).trans (List.Perm.swap a b l)

theorem sortByTime_perm (l : List VisitRow) : List.Perm (sortByTime l) l := by
  induction l with
  | nil => simp [sortByTime]
  | cons a l ih =>
    exact (insertByTime_perm a (sortByTime l)).trans (List.Perm.cons a ih)

theorem insertByTime_sorted (a : VisitRow) (l : List VisitRow)
    (h : l.Pairwise (fun x y => x.visited_at ≤ y.visited_at)) :
    (insertByTime a l).Pairwise (fun x y => x.visited_at ≤ y.visited_at) := by
  induction l with
  | nil => simp [insertByTime]
  | cons b l ih =>
    simp only [insertByTime]
    rcases List.pairwise_cons.mp h with ⟨hb, hl⟩
    split
    · rename_i hab
      refine List.pairwise_cons.mpr ⟨?_, h⟩
      intro y hy
      rcases List.mem_cons.mp hy with rfl | hy
      · exact hab
      · exact le_trans hab (hb _ hy)
    · rename_i hab
      refine List.pairwise_cons.mpr ⟨?_, ih hl⟩
      intro y hy
      rcases List.mem_cons.mp ((insertByTime_perm a l).mem_iff.mp hy) with rfl | h2
      · exact le_of_not_le hab
      · exact hb _ h2

theorem sortByTime_sorted (l : List VisitRow) :
    (sortByTime l).Pairwise (fun x y => x.visited_at ≤ y.visited_at) := by
  induction l with
  | nil => simp [sortByTime]
  | cons a l ih => exact insertByTime_sorted a (sortByTime l) ih

theorem mem_getVisited (db : DB) (u : Nat) (x : String) :
    x ∈ getVisited db u ↔ ∃ r ∈ db.visited, r.user_id = u ∧ r.station_id = x := by
  unfold getVisited getVisitedRows
  rw [List.mem_map]
  constructor
  · rintro ⟨r, hr, rfl⟩
    have hm := (sortByTime_perm _).mem_iff.mp hr
    rw [List.mem_filter] at hm
    exact ⟨r, hm.1, by simpa [isUser] using hm.2, rfl⟩
  · rintro ⟨r, hr, hu, rfl⟩
    exact ⟨r, (sortByTime_perm _).mem_iff.mpr
      (List.mem_filter.mpr ⟨hr, by simp [isUser, hu]⟩), rfl⟩

/-- The projection map under a user and a pair filter: the key step shared by
the visited-marks proofs. -/
def pairKey (r : VisitRow) : Nat × String :=
  (r.user_id, r.station_id)

/-- The UNIQUE(user_id, station_id) constraint as a predicate on the table
contents. -/
def PairsNodup (l : List VisitRow) : Prop :=
  (l.map pairKey).Nodup

theorem filter_not_pair_self (l : List VisitRow) (u : Nat) (s : String) :
    (l.filter (fun r => !isPair u s r)).filter (fun r => !isPair u s r)
      = l.filter (fun r => !isPair u s r) := by
  rw [List.filter_filter]
  exact List.filter_congr (fun r _ => by cases isPair u s r <;> rfl)

/-- C8: GET /api/visited returns the authenticated user's visited station
ids ordered by visit time ascending: the produced row list is sorted by
visited_at, is a permutation of exactly that user's rows, and the response
is its station_id projection. -/
theorem getVisited_time_ordered (db : DB) (u : Nat) :
    (getVisitedRows db u).Pairwise (fun a b => a.visited_at ≤ b.visited_at)
    ∧ List.Perm (getVisitedRows db u) (db.visited.filter (isUser u))
    ∧ getVisited db u = (getVisitedRows db u).map (fun r => r.station_id) :=
  ⟨sortByTime_sorted _, sortByTime_perm _, rfl⟩

/-- C3: marking a station twice in immediate succession equals marking it
once; after a mark the (user, station) pair occupies exactly one row, the
uniqueness constraint is preserved, and GET /api/visited lists the station
exactly once. -/
theorem mark_idempotent (db : DB) (u : Nat) (s : String) (now : Nat) :
    markVisited (markVisited db u s now) u s now = markVisited db u s now
    ∧ ((markVisited db u s now).visited.filter (isPair u s)).length = 1
    ∧ (getVisited (markVisited db u s now) u).count s = 1
    ∧ (PairsNodup db.visited → PairsNodup (markVisited db u s now).visited) := by
  have hnew : isPair u s ⟨u, s, now⟩ = true := by simp [isPair]
  refine ⟨?_, ?_, ?_, ?_⟩
  · unfold markVisited
    congr 1
    rw [List.filter_append, filter_not_pair_self]
    simp [hnew]
  · unfold markVisited
    simp only [List.filter_append, List.filter_filter]
    have h0 : db.visited.filter (fun r => isPair u s r && !isPair u s r) = [] := by
      apply List.eq_nil_of_length_eq_zero
      rw [← List.countP_eq_length_filter, List.countP_eq_zero]
      intro r _
      cases isPair u s r <;> simp
    rw [h0]
    simp [hnew]
  · unfold getVisited getVisitedRows
    rw [List.count_eq_countP, List.countP_map,
        (sortByTime_perm _).countP_eq]
    unfold markVisited
    simp only [List.filter_append, List.countP_append, List.filter_filter]
    have h0 : db.visited.countP
        (fun r => ((fun x => x == s) ∘ fun r => r.station_id) r
          && (isUser u r && !isPair u s r)) = 0 := by
      rw [List.countP_eq_zero]
      intro r _
      by_cases h1 : r.station_id = s <;> by_cases h2 : r.user_id = u <;>
        simp [isUser, isPair, h1, h2]
    rw [List.countP_filter, List.countP_filter, h0]
    simp [isUser, hnew]
  · intro hnd
    unfold markVisited PairsNodup
    simp only [List.map_append]
    rw [List.nodup_append]
    refine ⟨((List.filter_sublist _).map pairKey).nodup hnd, by simp, ?_⟩
    intro p hp hps
    simp only [List.map_cons, List.map_nil, List.mem_singleton] at hps
    subst hps
    rcases List.mem_map.mp hp with ⟨r, hr, hkey⟩
    rw [List.mem_filter] at hr
    have : isPair u s r = true := by
      simp only [pairKey, Prod.mk.injEq] at hkey
      simp [isPair, hkey.1, hkey.2]
    simp [this] at hr

/-- C3 witness: user 1 re-marks station A in a store where users 1 and 2
each hold one A row; double-marking equals single-marking, the pair occupies
one row, the list carries A once, and uniqueness is preserved. -/
theorem mark_idempotent_witness :
    markVisited (markVisited ⟨[], [], [⟨1, "A", 1⟩, ⟨2, "A", 2⟩], 3⟩ 1 "A" 3)
        1 "A" 3
      = markVisited ⟨[], [], [⟨1, "A", 1⟩, ⟨2, "A", 2⟩], 3⟩ 1 "A" 3
    ∧ ((markVisited ⟨[], [], [⟨1, "A", 1⟩, ⟨2, "A", 2⟩], 3⟩ 1 "A" 3).visited.filter
        (isPair 1 "A")).length = 1
    ∧ (getVisited (markVisited ⟨[], [], [⟨1, "A", 1⟩, ⟨2, "A", 2⟩], 3⟩
        1 "A" 3) 1).count "A" = 1
    ∧ PairsNodup (markVisited ⟨[], [], [⟨1, "A", 1⟩, ⟨2, "A", 2⟩], 3⟩
        1 "A" 3).visited := by
  have h := mark_idempotent ⟨[], [], [⟨1, "A", 1⟩, ⟨2, "A", 2⟩], 3⟩ 1 "A" 3
  exact ⟨h.1, h.2.1, h.2.2.1, h.2.2.2 (by unfold PairsNodup; decide)⟩

theorem filter_user_filter_not_pair (l : List VisitRow) (u u' : Nat)
    (s : String) (h : u ≠ u') :
    (l.filter (fun r => !isPair u s r)).filter (isUser u')
      = l.filter (isUser u') := by
  rw [List.filter_filter]
  refine List.filter_congr (fun r _ => ?_)
  by_cases hu : r.user_id = u'
  · have : isPair u s r = false := by
      simp only [isPair, decide_eq_false_iff_not]
      rintro ⟨h1, _⟩
      exact h (hu ▸ h1).symm
    simp [isUser, this, hu]
  · simp [isUser, hu]

theorem filter_user_filter_not_user (l : List VisitRow) (u u' : Nat)
    (h : u ≠ u') :
    (l.filter (fun r => !isUser u r)).filter (isUser u')
      = l.filter (isUser u') := by
  rw [List.filter_filter]
  refine List.filter_congr (fun r _ => ?_)
  by_cases hu : r.user_id = u'
  · have : isUser u r = false := by
      simp only [isUser, decide_eq_false_iff_not]
      intro h1
      exact h (hu ▸ h1).symm
    have h2 : isUser u' r = true := by simp [isUser, hu]
    rw [this, h2]
    rfl
  · simp [isUser, hu]

theorem applyVOp_filter_ne (u u' : Nat) (h : u ≠ u') (db : DB) (op : VOp) :
    (applyVOp u db op).visited.filter (isUser u')
      = db.visited.filter (isUser u') := by
  cases op with
  | mark s t =>
    simp only [applyVOp, markVisited, List.filter_append]
    rw [filter_user_filter_not_pair _ _ _ _ h]
    have : isUser u' (⟨u, s, t⟩ : VisitRow) = false := by
      simp only [isUser, decide_eq_false_iff_not]
      exact fun h1 => h h1
    simp [this]
  | unmark s =>
    simp only [applyVOp, deleteVisited]
    exact filter_user_filter_not_pair _ _ _ _ h
  | clear =>
    simp only [applyVOp, clearVisited]
    exact filter_user_filter_not_user _ _ _ h

theorem applyVOps_filter_ne (u u' : Nat) (h : u ≠ u') (ops : List VOp)
    (db : DB) :
    (applyVOps u db ops).visited.filter (isUser u')
      = db.visited.filter (isUser u') := by
  induction ops generalizing db with
  | nil => rfl
  | cons op ops ih =>
    simp only [applyVOps]
    rw [ih, applyVOp_filter_ne u u' h]

/-- C1: any sequence of mark/unmark/clear-all operations executed for one
session-resolved user leaves every other user's visited list unchanged, and
the rows a user's list is built from all carry that user's id. -/
theorem visited_ops_isolated (db : DB) (u u' : Nat) (ops : List VOp)
    (h : u ≠ u') :
    getVisited (applyVOps u db ops) u' = getVisited db u'
    ∧ ∀ r ∈ getVisitedRows db u, r.user_id = u := by
  constructor
  · unfold getVisited getVisitedRows
    rw [applyVOps_filter_ne u u' h]
  · intro r hr
    have hm := (sortByTime_perm _).mem_iff.mp hr
    rw [List.mem_filter] at hm
    simpa [isUser] using hm.2

/-- C1 witness: users 1 and 2 both involved with station A; user 1 marks,
unmarks, re-marks and clears while user 2's single mark of the same station
id stays untouched. -/
theorem visited_ops_isolated_witness :
    getVisited (applyVOps 1 ⟨[], [], [⟨2, "A", 0⟩], 3⟩
        [VOp.mark "A" 1, VOp.unmark "A", VOp.mark "A" 2, VOp.clear]) 2
      = getVisited ⟨[], [], [⟨2, "A", 0⟩], 3⟩ 2
    ∧ ∀ r ∈ getVisitedRows ⟨[], [], [⟨2, "A", 0⟩], 3⟩ 1, r.user_id = 1 :=
  visited_ops_isolated ⟨[], [], [⟨2, "A", 0⟩], 3⟩ 1 2
    [VOp.mark "A" 1, VOp.unmark "A", VOp.mark "A" 2, VOp.clear] (by decide)

/-- C6: DELETE /api/visited/:stationId reports deleted = true exactly when a
row existed; when the station was not marked the store is unchanged, and in
all cases the station is absent afterwards while every other station's
membership is untouched. -/
theorem unmark_reports_existence (db : DB) (u : Nat) (s : String) :
    (0 < (deleteVisited db u s).2 ↔ s ∈ getVisited db u)
    ∧ (s ∉ getVisited db u → (deleteVisited db u s).1 = db)
    ∧ s ∉ getVisited (deleteVisited db u s).1 u
    ∧ (∀ x, x ≠ s →
        (x ∈ getVisited (deleteVisited db u s).1 u ↔ x ∈ getVisited db u)) := by
  refine ⟨?_, ?_, ?_, ?_⟩
  · simp only [deleteVisited, ← List.countP_eq_length_filter]
    rw [List.countP_pos_iff, mem_getVisited]
    constructor
    · rintro ⟨r, hr, hp⟩
      simp only [isPair, decide_eq_true_eq] at hp
      exact ⟨r, hr, hp⟩
    · rintro ⟨r, hr, h1, h2⟩
      exact ⟨r, hr, by simp [isPair, h1, h2]⟩
  · intro hs
    rw [mem_getVisited] at hs
    push_neg at hs
    simp only [deleteVisited]
    have : db.visited.filter (fun r => !isPair u s r) = db.visited := by
      rw [List.filter_eq_self]
      intro r hr
      simp only [isPair, Bool.not_eq_true', decide_eq_false_iff_not]
      rintro ⟨h1, h2⟩
      exact hs r hr h1 h2
    rw [this]
  · rw [mem_getVisited]
    rintro ⟨r, hr, h1, h2⟩
    simp only [deleteVisited, List.mem_filter] at hr
    rcases hr with ⟨_, hp⟩
    simp [isPair, h1, h2] at hp
  · intro x hx
    rw [mem_getVisited, mem_getVisited]
    constructor
    · rintro ⟨r, hr, h1, h2⟩
      simp only [deleteVisited, List.mem_filter] at hr
      exact ⟨r, hr.1, h1, h2⟩
    · rintro ⟨r, hr, h1, h2⟩
      refine ⟨r, ?_, h1, h2⟩
      simp only [deleteVisited, List.mem_filter]
      refine ⟨hr, ?_⟩
      simp only [isPair, Bool.not_eq_true', decide_eq_false_iff_not]
      rintro ⟨_, h3⟩
      exact hx (h2 ▸ h3 ▸ rfl)

/-- C6 witness: in a store where user 1 has marked only station A, unmarking
station B reports deleted = false and changes nothing, and unmarking leaves
station A's membership intact. -/
theorem unmark_reports_existence_witness :
    (¬ 0 < (deleteVisited ⟨[], [], [⟨1, "A", 0⟩], 2⟩ 1 "B").2)
    ∧ (deleteVisited ⟨[], [], [⟨1, "A", 0⟩], 2⟩ 1 "B").1
        = ⟨[], [], [⟨1, "A", 0⟩], 2⟩
    ∧ ("A" ∈ getVisited (deleteVisited ⟨[], [], [⟨1, "A", 0⟩], 2⟩ 1 "B").1 1
        ↔ "A" ∈ getVisited ⟨[], [], [⟨1, "A", 0⟩], 2⟩ 1) := by
  refine ⟨by decide, ?_, ?_⟩
  · exact (unmark_reports_existence ⟨[], [], [⟨1, "A", 0⟩], 2⟩ 1 "B").2.1
      (by decide)
  · exact (unmark_reports_existence ⟨[], [], [⟨1, "A", 0⟩], 2⟩ 1 "B").2.2.2
      "A" (by decide)

/-- C2 (amended): a request with no cookie, an unknown session id, or an
explicitly deleted session id resolves to no user; an expired session id is
also turned away, but only once the current UTC day is later than the
expiry's UTC day, because the handler compares the ISO expires_at string
against datetime('now') as raw TEXT; and every protected /api/visited
endpoint answers any unresolved session with the one fixed 401
authentication-required response while leaving the store untouched. -/
theorem protected_endpoints_require_auth (db : DB) (sid : String) (now : Nat)
    (cookie : Option String) (stationId : String) :
    getUserFromSession db none now = none
    ∧ ((∀ srow ∈ db.sessions, srow.id ≠ sid) →
        getUserFromSession db (some sid) now = none)
    ∧ getUserFromSession (deleteSession db sid) (some sid) now = none
    ∧ ((∀ srow ∈ db.sessions, srow.id = sid →
          srow.expires_at / msPerDay < now / msPerDay) →
        getUserFromSession db (some sid) now = none)
    ∧ (getUserFromSession db cookie now = none →
        getVisitedEndpoint db cookie now = (authRequired, db)
        ∧ markEndpoint db cookie now stationId = (authRequired, db)
        ∧ unmarkEndpoint db cookie now stationId = (authRequired, db)
        ∧ clearEndpoint db cookie now = (authRequired, db)) := by
  refine ⟨rfl, ?_, ?_, ?_, ?_⟩
  · intro hunk
    simp only [getUserFromSession]
    split
    · rfl
    · have : db.sessions.find? (fun srow =>
          srow.id == sid && expiresAtTextGtNow srow.expires_at now) = none := by
        rw [List.find?_eq_none]
        intro srow hs
        simp [hunk srow hs]
      rw [this]
  · simp only [getUserFromSession, deleteSession]
    split
    · rfl
    · have : (db.sessions.filter (fun srow => !(srow.id == sid))).find?
          (fun srow => srow.id == sid && expiresAtTextGtNow srow.expires_at now)
            = none := by
        rw [List.find?_eq_none]
        intro srow hs
        rw [List.mem_filter] at hs
        rcases hs with ⟨_, hne⟩
        simp only [Bool.not_eq_eq_eq_not, Bool.not_true, beq_eq_false_iff_ne,
          ne_eq] at hne
        simp [hne]
      rw [this]
  · intro hexp
    simp only [getUserFromSession]
    split
    · rfl
    · have : db.sessions.find? (fun srow =>
          srow.id == sid && expiresAtTextGtNow srow.expires_at now)
            = none := by
        rw [List.find?_eq_none]
        intro srow hs
        by_cases hid : srow.id = sid
        · have hlt := hexp srow hs hid
          have hfalse : expiresAtTextGtNow srow.expires_at now = false := by
            simp only [expiresAtTextGtNow, decide_eq_false_iff_not]
            exact Nat.not_le.mpr hlt
          simp [hid, hfalse]
        · simp [hid]
      rw [this]
  · intro hnone
    refine ⟨?_, ?_, ?_, ?_⟩ <;>
      simp [getVisitedEndpoint, markEndpoint, unmarkEndpoint, clearEndpoint,
        hnone]

/-- C2 witness: the store holds one session that expired at 5 ms (UTC day
zero) and the clock reads 86400005 ms (UTC day one, past the expiry's day);
a missing cookie, an unknown id, a deleted id, and this day-expired id are
all unresolved, and GET /api/visited answers the day-expired id with the
fixed 401 and no store change. -/
theorem protected_endpoints_require_auth_witness :
    getUserFromSession ⟨[⟨1, "alice", "1234"⟩], [⟨"tok", 1, 5⟩], [], 2⟩
        none 86400005 = none
    ∧ getUserFromSession ⟨[⟨1, "alice", "1234"⟩], [⟨"tok", 1, 5⟩], [], 2⟩
        (some "other") 86400005 = none
    ∧ getUserFromSession
        (deleteSession ⟨[⟨1, "alice", "1234"⟩], [⟨"tok", 1, 5⟩], [], 2⟩ "tok")
        (some "tok") 86400005 = none
    ∧ getUserFromSession ⟨[⟨1, "alice", "1234"⟩], [⟨"tok", 1, 5⟩], [], 2⟩
        (some "tok") 86400005 = none
    ∧ getVisitedEndpoint ⟨[⟨1, "alice", "1234"⟩], [⟨"tok", 1, 5⟩], [], 2⟩
        (some "tok") 86400005
        = (authRequired, ⟨[⟨1, "alice", "1234"⟩], [⟨"tok", 1, 5⟩], [], 2⟩) := by
  have h := protected_endpoints_require_auth
    ⟨[⟨1, "alice", "1234"⟩], [⟨"tok", 1, 5⟩], [], 2⟩ "tok" 86400005 (some "tok") "A"
  have h2 := protected_endpoints_require_auth
    ⟨[⟨1, "alice", "1234"⟩], [⟨"tok", 1, 5⟩], [], 2⟩ "other" 86400005 none "A"
  refine ⟨h2.1, h2.2.1 (by decide), h.2.2.1, h.2.2.2.1 (by decide), ?_⟩
  exact (h.2.2.2.2 (h.2.2.2.1 (by decide))).1

/-- C2 counterexample to the claim as frozen: a session whose expiry
instant is the 30-day mark 2592000000 ms (a UTC midnight) is still resolved
at 2638800000 ms - thirteen hours past its expiry, same UTC day - and GET
/api/visited answers 200 with data rather than the required 401: the raw
TEXT comparison of the ISO expires_at against datetime('now') keeps every
session alive until the end of its expiry's UTC day. -/
theorem session_past_expiry_still_accepted :
    (2592000000 : Nat) < 2638800000
    ∧ getUserFromSession
        ⟨[⟨1, "alice", "1234"⟩], [⟨"tok", 1, 2592000000⟩], [], 2⟩
        (some "tok") 2638800000 = some ⟨1, "alice", "1234"⟩
    ∧ (getVisitedEndpoint
        ⟨[⟨1, "alice", "1234"⟩], [⟨"tok", 1, 2592000000⟩], [], 2⟩
        (some "tok") 2638800000).1
      = ⟨200, RespBody.stationList []⟩ :=
  ⟨by decide, by decide, by decide⟩

/-- C5: whenever a login attempt matches no stored (normalized handle,
credential) row, the response is one fixed value independent of the store -
a missing handle and a wrong credential are indistinguishable - and the
store is left unchanged; with both fields present that value is the generic
401. -/
theorem login_no_existence_leak (db1 db2 : DB) (username pin : String)
    (now1 now2 : Nat) (rand1 rand2 : Nat → Nat)
    (h1 : verifyUser db1 username pin = none)
    (h2 : verifyUser db2 username pin = none) :
    (loginEndpoint db1 username pin now1 rand1).1
      = (loginEndpoint db2 username pin now2 rand2).1
    ∧ (loginEndpoint db1 username pin now1 rand1).2 = db1
    ∧ (username ≠ "" → pin ≠ "" →
        (loginEndpoint db1 username pin now1 rand1).1
          = ⟨401, RespBody.errMsg "Invalid username or PIN"⟩) := by
  simp only [loginEndpoint]
  by_cases hempty : username = "" ∨ pin = ""
  · rw [if_pos hempty, if_pos hempty]
    exact ⟨rfl, rfl, fun hu hp => absurd hempty (by simp [hu, hp])⟩
  · rw [if_neg hempty, if_neg hempty, h1, h2]
    exact ⟨rfl, rfl, fun _ _ => rfl⟩

/-- C5 witness: attempting to log in as alice with PIN 1234 fails with the
same response against a store with no alice at all and against a store where
alice exists with PIN 9999. -/
theorem login_no_existence_leak_witness :
    (loginEndpoint ⟨[], [], [], 1⟩ "alice" "1234" 0 (fun _ => 0)).1
      = (loginEndpoint ⟨[⟨1, "alice", "9999"⟩], [], [], 2⟩ "alice" "1234" 7
          (fun _ => 3)).1
    ∧ (loginEndpoint ⟨[], [], [], 1⟩ "alice" "1234" 0 (fun _ => 0)).2
        = ⟨[], [], [], 1⟩
    ∧ (loginEndpoint ⟨[], [], [], 1⟩ "alice" "1234" 0 (fun _ => 0)).1
        = ⟨401, RespBody.errMsg "Invalid username or PIN"⟩ := by
  have h := login_no_existence_leak ⟨[], [], [], 1⟩
    ⟨[⟨1, "alice", "9999"⟩], [], [], 2⟩ "alice" "1234" 0 7
    (fun _ => 0) (fun _ => 3) (by decide) (by decide)
  exact ⟨h.1, h.2.1, h.2.2 (by decide) (by decide)⟩

theorem lowerHandle_length (s : String) :
    (lowerHandle s).length = s.length := by
  rcases s with ⟨d⟩
  simp [lowerHandle, String.length]

/-- C7: once a user is registered under the normalization of handle h, any
registration attempt under a handle with the same normalization and a valid
credential is answered 400 Username already taken and the store - existing
user included - is unchanged. -/
theorem register_duplicate_rejected (db : DB) (h h2 pin : String)
    (now : Nat) (rand : Nat → Nat)
    (hreg : ∃ urow ∈ db.users, urow.username = lowerHandle h)
    (hlo : 3 ≤ h.length) (hhi : h.length ≤ 20)
    (hpin : validPin pin = true)
    (heq : lowerHandle h2 = lowerHandle h) :
    registerEndpoint db h2 pin now rand
      = (⟨400, RespBody.errMsg "Username already taken"⟩, db) := by
  have hlen2 : h2.length = h.length := by
    rw [← lowerHandle_length h2, heq, lowerHandle_length]
  have hpne : pin ≠ "" := by
    intro hp
    rw [hp] at hpin
    simp [validPin] at hpin
  have hne : ¬(h2 = "" ∨ pin = "") := by
    rintro (rfl | rfl)
    · rw [show ("" : String).length = 0 from rfl] at hlen2
      omega
    · exact hpne rfl
  have hcu : createUser db h2 pin = (none, db) := by
    unfold createUser
    rw [if_pos]
    rw [List.any_eq_true]
    rcases hreg with ⟨urow, hm, hu⟩
    exact ⟨urow, hm, by rw [heq]; simp [hu]⟩
  unfold registerEndpoint
  rw [if_neg hne, if_neg (by omega), if_neg (by simp [hpin]), hcu]

/-- C7 witness: with alice (PIN 1234) registered, registering ALICE with the
valid PIN 5678 is rejected as a duplicate and the store is untouched. -/
theorem register_duplicate_rejected_witness :
    registerEndpoint ⟨[⟨1, "alice", "1234"⟩], [], [], 2⟩ "ALICE" "5678" 9
        (fun _ => 0)
      = (⟨400, RespBody.errMsg "Username already taken"⟩,
         ⟨[⟨1, "alice", "1234"⟩], [], [], 2⟩) :=
  register_duplicate_rejected ⟨[⟨1, "alice", "1234"⟩], [], [], 2⟩
    "alice" "ALICE" "5678" 9 (fun _ => 0) (by decide) (by decide) (by decide)
    (by decide) (by decide)

/-- Lowercase hex alphabet membership. -/
def isHexChar (c : Char) : Bool :=
  c.isDigit || (decide ('a' ≤ c) && decide (c ≤ 'f'))

theorem hexDigit_isHex (n : Nat) (h : n < 16) :
    isHexChar (hexDigit n) = true := by
  interval_cases n <;> decide

theorem byteHex_flatten_length (l : List Nat) :
    ((l.map byteToHexChars).flatten).length = 2 * l.length := by
  induction l with
  | nil => rfl
  | cons a l ih =>
    simp only [List.map_cons, List.flatten_cons, List.length_append, ih]
    simp only [byteToHexChars, List.length_cons, List.length_nil,
      List.length_cons]
    omega

/-- C4: createSession produces a 48-character token over the lowercase hex
alphabet (24 bytes, two hex digits each) and appends exactly one session row
carrying that token, the given user id, and expiry now + 30 days in
milliseconds, touching nothing else; the token itself is returned. The
randomness source is the rand parameter, standing for Math.random. -/
theorem createSession_contract (db : DB) (uid now : Nat) (rand : Nat → Nat) :
    (createSession db uid now rand).1.length = 48
    ∧ (∀ c ∈ (createSession db uid now rand).1.data, isHexChar c = true)
    ∧ (createSession db uid now rand).2.sessions
        = db.sessions ++ [⟨(createSession db uid now rand).1, uid,
            now + 30 * 24 * 60 * 60 * 1000⟩]
    ∧ (createSession db uid now rand).2.users = db.users
    ∧ (createSession db uid now rand).2.visited = db.visited := by
  refine ⟨?_, ?_, rfl, rfl, rfl⟩
  · show (generateSessionId rand).length = 48
    unfold generateSessionId
    show ((((List.range 24).map (fun i => rand i % 256)).map
      byteToHexChars).flatten).length = 48
    rw [byteHex_flatten_length]
    simp
  · intro c hc
    have hc' : c ∈ (((List.range 24).map (fun i => rand i % 256)).map
        byteToHexChars).flatten := hc
    rcases List.mem_flatten.mp hc' with ⟨chunk, hchunk, hcin⟩
    rcases List.mem_map.mp hchunk with ⟨b, _, rfl⟩
    rcases List.mem_cons.mp hcin with rfl | htl
    · exact hexDigit_isHex _ (Nat.mod_lt _ (by omega))
    · rcases List.mem_cons.mp htl with rfl | hnil
      · exact hexDigit_isHex _ (Nat.mod_lt _ (by omega))
      · simp at hnil

theorem runUnmark_spec (oc : CallOutcome) (l : List String) :
    ∀ vis : List String, vis.Nodup →
      (∀ x ∈ (runUnmark oc vis l).2, x ∈ l)
      ∧ (∀ x ∈ (runUnmark oc vis l).2, x ∈ vis)
      ∧ (runUnmark oc vis l).1.Nodup
      ∧ (∀ x, x ∈ (runUnmark oc vis l).1
          ↔ x ∈ vis ∧ x ∉ (runUnmark oc vis l).2) := by
  induction l with
  | nil =>
    intro vis hv
    exact ⟨by simp [runUnmark], by simp [runUnmark], by simpa [runUnmark],
      fun x => by simp [runUnmark]⟩
  | cons id rest ih =>
    intro vis hv
    simp only [runUnmark]
    split
    · rename_i hmem
      cases hoc : oc id with
      | none =>
        exact ⟨by simp, by simp, hv, fun x => by simp⟩
      | some b =>
        cases b with
        | true =>
          simp only
          rcases ih (vis.erase id) (hv.erase id) with ⟨hA, hB, hC, hD⟩
          refine ⟨?_, ?_, hC, ?_⟩
          · intro x hx
            rcases List.mem_cons.mp hx with rfl | hx
            · exact List.mem_cons_self _ _
            · exact List.mem_cons_of_mem _ (hA x hx)
          · intro x hx
            rcases List.mem_cons.mp hx with rfl | hx
            · exact hmem
            · exact List.mem_of_mem_erase (hB x hx)
          · intro x
            rw [hD x, hv.mem_erase_iff]
            simp only [List.mem_cons]
            tauto
        | false =>
          simp only
          rcases ih vis hv with ⟨hA, hB, hC, hD⟩
          exact ⟨fun x hx => List.mem_cons_of_mem _ (hA x hx), hB, hC, hD⟩
    · rename_i hmem
      rcases ih vis hv with ⟨hA, hB, hC, hD⟩
      exact ⟨fun x hx => List.mem_cons_of_mem _ (hA x hx), hB, hC, hD⟩

theorem runMark_spec (oc : CallOutcome) (l : List String) :
    ∀ vis : List String, vis.Nodup →
      (∀ x ∈ (runMark oc vis l).2, x ∈ l)
      ∧ (∀ x ∈ (runMark oc vis l).2, x ∉ vis)
      ∧ (runMark oc vis l).1.Nodup
      ∧ (∀ x, x ∈ (runMark oc vis l).1
          ↔ x ∈ vis ∨ x ∈ (runMark oc vis l).2) := by
  induction l with
  | nil =>
    intro vis hv
    exact ⟨by simp [runMark], by simp [runMark], by simpa [runMark],
      fun x => by simp [runMark]⟩
  | cons id rest ih =>
    intro vis hv
    simp only [runMark]
    split
    · rename_i hmem
      rcases ih vis hv with ⟨hA, hB, hC, hD⟩
      exact ⟨fun x hx => List.mem_cons_of_mem _ (hA x hx), hB, hC, hD⟩
    · rename_i hmem
      cases hoc : oc id with
      | none =>
        exact ⟨by simp, by simp, hv, fun x => by simp⟩
      | some b =>
        cases b with
        | true =>
          simp only
          have hv' : (vis ++ [id]).Nodup := by
            rw [List.nodup_append]
            exact ⟨hv, List.nodup_singleton id,
              fun x hx hx2 => hmem ((List.mem_singleton.mp hx2) ▸ hx)⟩
          rcases ih (vis ++ [id]) hv' with ⟨hA, hB, hC, hD⟩
          refine ⟨?_, ?_, hC, ?_⟩
          · intro x hx
            rcases List.mem_cons.mp hx with rfl | hx
            · exact List.mem_cons_self _ _
            · exact List.mem_cons_of_mem _ (hA x hx)
          · intro x hx
            rcases List.mem_cons.mp hx with rfl | hx
            · exact hmem
            · intro hxv
              exact hB x hx (List.mem_append_left _ hxv)
          · intro x
            rw [hD x]
            simp only [List.mem_append, List.mem_singleton, List.mem_cons]
            tauto
        | false =>
          simp only
          rcases ih vis hv with ⟨hA, hB, hC, hD⟩
          exact ⟨fun x hx => List.mem_cons_of_mem _ (hA x hx), hB, hC, hD⟩

/-- C9: the client toggle targets the opposite of the primary id's current
membership and walks the complex members; whatever the per-call outcomes -
ok, not-ok, or a thrown fetch aborting the loop - the ids whose calls
succeeded all lie in the complex, each of them has its mirror membership
flipped, and every other id keeps its previous membership. -/
theorem toggleStation_partial_failure (vis : List String) (primary : String)
    (complex : List String) (oc : CallOutcome) (hv : vis.Nodup) :
    (∀ x ∈ (toggleStation vis primary complex oc).2, x ∈ complex)
    ∧ (∀ x ∈ (toggleStation vis primary complex oc).2,
        (x ∈ (toggleStation vis primary complex oc).1 ↔ x ∉ vis))
    ∧ (∀ x, x ∉ (toggleStation vis primary complex oc).2 →
        (x ∈ (toggleStation vis primary complex oc).1 ↔ x ∈ vis)) := by
  unfold toggleStation
  split
  · rcases runUnmark_spec oc complex vis hv with ⟨hA, hB, _, hD⟩
    refine ⟨hA, ?_, ?_⟩
    · intro x hx
      rw [hD x]
      have := hB x hx
      constructor
      · rintro ⟨_, hns⟩
        exact absurd hx hns
      · intro hnv
        exact absurd this hnv
    · intro x hx
      rw [hD x]
      constructor
      · exact fun hp => hp.1
      · exact fun hp => ⟨hp, hx⟩
  · rcases runMark_spec oc complex vis hv with ⟨hA, hB, _, hD⟩
    refine ⟨hA, ?_, ?_⟩
    · intro x hx
      rw [hD x]
      have := hB x hx
      constructor
      · intro _
        exact this
      · intro _
        exact Or.inr hx
    · intro x hx
      rw [hD x]
      constructor
      · rintro (hp | hp)
        · exact hp
        · exact absurd hp hx
      · exact fun hp => Or.inl hp

/-- C9 witness: mirror holding a, toggling a whose complex is a, b, c with
the DELETE for a succeeding and the one for b answered not-ok: a is flipped
out, b and c keep their membership. In this unmark branch b and c were never
in the mirror, so the mirror changed on exactly the succeeded id a. -/
theorem toggleStation_partial_failure_witness :
    (∀ x ∈ (toggleStation ["a"] "a" ["a", "b", "c"]
        (fun id => if id = "a" then some true else some false)).2,
      x ∈ ["a", "b", "c"])
    ∧ (∀ x ∈ (toggleStation ["a"] "a" ["a", "b", "c"]
        (fun id => if id = "a" then some true else some false)).2,
        (x ∈ (toggleStation ["a"] "a" ["a", "b", "c"]
          (fun id => if id = "a" then some true else some false)).1
          ↔ x ∉ ["a"]))
    ∧ (∀ x, x ∉ (toggleStation ["a"] "a" ["a", "b", "c"]
        (fun id => if id = "a" then some true else some false)).2 →
        (x ∈ (toggleStation ["a"] "a" ["a", "b", "c"]
          (fun id => if id = "a" then some true else some false)).1
          ↔ x ∈ ["a"])) :=
  toggleStation_partial_failure ["a"] "a" ["a", "b", "c"]
    (fun id => if id = "a" then some true else some false) (by decide)

theorem insertByTime_append_last (a m : VisitRow) (l : List VisitRow)
    (h : a.visited_at ≤ m.visited_at) :
    insertByTime a (l ++ [m]) = insertByTime a l ++ [m] := by
  induction l with
  | nil => simp [insertByTime, h]
  | cons b l ih =>
    simp only [List.cons_append, insertByTime]
    split
    · simp
    · change b :: insertByTime a (l ++ [m]) = b :: insertByTime a l ++ [m]
      rw [ih]
      simp

theorem sortByTime_append_last (m : VisitRow) (l : List VisitRow)
    (h : ∀ a ∈ l, a.visited_at ≤ m.visited_at) :
    sortByTime (l ++ [m]) = sortByTime l ++ [m] := by
  induction l with
  | nil => rfl
  | cons a l ih =>
    simp only [List.cons_append, sortByTime]
    change insertByTime a (sortByTime (l ++ [m]))
      = insertByTime a (sortByTime l) ++ [m]
    rw [ih (fun x hx => h x (List.mem_cons_of_mem a hx))]
    exact insertByTime_append_last a m _ (h a (List.mem_cons_self a l))

/-- C10: re-marking an already-visited station replaces its row with one
stamped at the current time, so when every stored timestamp of that user is
at most the current time the station id lands in the last position of the
time-ordered GET /api/visited response while the set of listed ids is
unchanged. -/
theorem remark_moves_to_last (db : DB) (u : Nat) (s : String) (now : Nat)
    (hle : ∀ r ∈ db.visited, r.user_id = u → r.visited_at ≤ now)
    (hmem : s ∈ getVisited db u) :
    (⟨u, s, now⟩ : VisitRow) ∈ (markVisited db u s now).visited
    ∧ (getVisited (markVisited db u s now) u).getLast? = some s
    ∧ (∀ x, x ∈ getVisited (markVisited db u s now) u
        ↔ x ∈ getVisited db u) := by
  have hfil : (markVisited db u s now).visited.filter (isUser u)
      = (db.visited.filter (fun r => !isPair u s r)).filter (isUser u)
        ++ [⟨u, s, now⟩] := by
    simp only [markVisited, List.filter_append]
    simp [isUser]
  refine ⟨?_, ?_, ?_⟩
  · simp [markVisited]
  · unfold getVisited getVisitedRows
    rw [hfil, sortByTime_append_last]
    · rw [List.map_append]
      exact List.getLast?_concat _
    · intro a ha
      rw [List.mem_filter] at ha
      rcases ha with ⟨ha, hau⟩
      rw [List.mem_filter] at ha
      simp only [isUser, decide_eq_true_eq] at hau
      exact hle a ha.1 hau
  · intro x
    rw [mem_getVisited, mem_getVisited]
    constructor
    · rintro ⟨r, hr, h1, h2⟩
      simp only [markVisited, List.mem_append, List.mem_filter,
        List.mem_singleton] at hr
      rcases hr with ⟨hr, _⟩ | rfl
      · exact ⟨r, hr, h1, h2⟩
      · rw [← h2]
        exact (mem_getVisited db u s).mp hmem
    · rintro ⟨r, hr, h1, h2⟩
      by_cases hps : isPair u s r = true
      · simp only [isPair, decide_eq_true_eq] at hps
        refine ⟨⟨u, s, now⟩, by simp [markVisited], rfl, ?_⟩
        rw [← h2, hps.2]
      · refine ⟨r, ?_, h1, h2⟩
        simp only [markVisited, List.mem_append, List.mem_filter]
        exact Or.inl ⟨hr, by simp [hps]⟩

/-- C10 witness: user 1 visited A then B; re-marking A at a later time moves
A to the end of the list while the membership of A and B is unchanged. -/
theorem remark_moves_to_last_witness :
    (⟨1, "A", 5⟩ : VisitRow)
      ∈ (markVisited ⟨[], [], [⟨1, "A", 1⟩, ⟨1, "B", 2⟩], 2⟩ 1 "A" 5).visited
    ∧ (getVisited (markVisited ⟨[], [], [⟨1, "A", 1⟩, ⟨1, "B", 2⟩], 2⟩
        1 "A" 5) 1).getLast? = some "A"
    ∧ (∀ x, x ∈ getVisited (markVisited ⟨[], [], [⟨1, "A", 1⟩, ⟨1, "B", 2⟩], 2⟩
        1 "A" 5) 1
        ↔ x ∈ getVisited ⟨[], [], [⟨1, "A", 1⟩, ⟨1, "B", 2⟩], 2⟩ 1) :=
  remark_moves_to_last ⟨[], [], [⟨1, "A", 1⟩, ⟨1, "B", 2⟩], 2⟩ 1 "A" 5
    (by decide) (by decide)

end SubwayTracker
